import Mathlib

/-!
Shallow embedding of the `ryanc_rst` Pelican plugin (files `ryanc_rst.py` and
`abbr_state.py`).  Python strings are modelled as Lean `String`/`List Char`,
Python byte strings as `List Nat`, Python dictionaries as insertion-ordered
association lists, and raised exceptions as `Except`/`Option` results.  Each
definition is a direct translation of the corresponding Python function.
-/

set_option maxRecDepth 4096

deriving instance DecidableEq for Except

namespace RyancRst

/-! ### Small string helpers (defined over `List Char` so that every
operation reduces by computation) -/

/-- Python `int(text)` for a string of decimal digits, the only form the
modelled call sites receive; any other input raises `ValueError`
(`Option.none`).  (Python also accepts signs, surrounding whitespace and
underscores; those forms are outside the modelled inputs.) -/
def pyInt? (s : String) : Option Nat :=
  if s.data ≠ [] ∧ s.data.all Char.isDigit then
    some (s.data.foldl (fun acc c => acc * 10 + (c.toNat - 48)) 0)
  else Option.none

/-- Python `str.split(sep)` for a one-character separator (keeps empty
fields). -/
def splitCharAux (sep : Char) : List Char → List Char → List String
  | [], acc => [String.mk acc.reverse]
  | c :: cs, acc =>
    if c = sep then String.mk acc.reverse :: splitCharAux sep cs []
    else splitCharAux sep cs (c :: acc)

def splitChar (sep : Char) (s : String) : List String := splitCharAux sep s.data []

/-! ### Ordered dictionaries (Python `dict` semantics: update in place, insert at end) -/

def dictGet {κ α : Type} [DecidableEq κ] : List (κ × α) → κ → Option α
  | [], _ => Option.none
  | (k', v) :: rest, k => if k' = k then some v else dictGet rest k

def dictSet {κ α : Type} [DecidableEq κ] : List (κ × α) → κ → α → List (κ × α)
  | [], k, v => [(k, v)]
  | (k', v') :: rest, k, v =>
    if k' = k then (k, v) :: rest else (k', v') :: dictSet rest k v

/-! ### Character classes used by the regular expressions in `esc` and the roles -/

/-- `[A-Za-z0-9]` -/
def isAlnumA (c : Char) : Bool := c.isAlpha || c.isDigit

/-- Python `\s` restricted to the ASCII whitespace characters. -/
def pyIsSpace (c : Char) : Bool :=
  c = ' ' || c = '\t' || c = '\n' || c = Char.ofNat 11 || c = Char.ofNat 12 || c = '\r'

/-! ### `esc` — the two escaping contexts (ryanc_rst.py lines 48-76)

`re.sub(r'&(#|[A-Za-z0-9]+;)', r'&amp;\1', s)` (attribute context) and
`re.sub(r'&(#|[A-Za-z][0-9A-Za-z])', r'&amp;\1', s)` (text context) are modelled
by a left-to-right scan that, at each `&`, attempts the group and on success
emits `&amp;` followed by the matched group, resuming after the match (the
matched group never contains `&`, so consumption matches `re.sub`). -/

/-- Match `(#|[A-Za-z0-9]+;)` at the head of the list; return the matched
characters and the remainder.  (`[A-Za-z0-9]+` is greedy and must be followed
immediately by `;`, so the match is the maximal alphanumeric run.) -/
def chrRef (cs : List Char) : Option (List Char × List Char) :=
  match cs with
  | [] => Option.none
  | c :: rest =>
    if c = '#' then some (['#'], rest)
    else
      match cs.dropWhile isAlnumA with
      | ';' :: rest2 =>
        if (cs.takeWhile isAlnumA).isEmpty then Option.none
        else some (cs.takeWhile isAlnumA ++ [';'], rest2)
      | _ => Option.none

/-- The inserted text `&amp;`. -/
def ampRepl : List Char := ['&', 'a', 'm', 'p', ';']

/-- Attribute-context ampersand escaping:
`re.sub(r'&(#|[A-Za-z0-9]+;)', r'&amp;\1', s)`.  At a matching `&` the scan
emits `&amp;` and continues with the following characters; since a matched
group consists of `#` or alphanumerics and `;` — never `&` — the continued
scan copies the group unchanged and starts no new match inside it, so this
equals `re.sub`'s non-overlapping replacement. -/
def ampEscA : List Char → List Char
  | [] => []
  | c :: cs =>
    if c = '&' then
      match chrRef cs with
      | some _ => ampRepl ++ ampEscA cs
      | Option.none => c :: ampEscA cs
    else c :: ampEscA cs

/-- Match `(#|[A-Za-z][0-9A-Za-z])` at the head of the list (text context). -/
def refT (cs : List Char) : Option (List Char × List Char) :=
  match cs with
  | [] => Option.none
  | c :: rest =>
    if c = '#' then some (['#'], rest)
    else
      match rest with
      | b :: rest2 =>
        if c.isAlpha && (b.isAlpha || b.isDigit) then some ([c, b], rest2) else Option.none
      | [] => Option.none

/-- Text-context ampersand escaping:
`re.sub(r'&(#|[A-Za-z][0-9A-Za-z])', r'&amp;\1', s)`, with the same
non-consuming scan as `ampEscA` (a matched group never contains `&`). -/
def ampEscT : List Char → List Char
  | [] => []
  | c :: cs =>
    if c = '&' then
      match refT cs with
      | some _ => ampRepl ++ ampEscT cs
      | Option.none => c :: ampEscT cs
    else c :: ampEscT cs

/-- `str.replace(old_char, new_text)` for a single-character pattern. -/
def replaceChar (c : Char) (r : List Char) : List Char → List Char
  | [] => []
  | x :: xs => (if x = c then r else [x]) ++ replaceChar c r xs

def sq : Char := Char.ofNat 39
def bq : Char := Char.ofNat 96

/-- The `attr == '"'` branch of `esc`. -/
def escDqA (l : List Char) : List Char :=
  replaceChar '<' ("&lt;".data) (replaceChar '"' ("&#34;".data) (ampEscA l))

/-- The `attr == "'"` branch of `esc`. -/
def escSqA (l : List Char) : List Char :=
  replaceChar '<' ("&lt;".data) (replaceChar sq ("&#39;".data) (ampEscA l))

/-- The `attr == ''` (unquoted) branch of `esc`: space, both quotes, `>`, `=`
and backtick are each replaced in the source's order. -/
def escUnqA (l : List Char) : List Char :=
  replaceChar '<' ("&lt;".data)
    (replaceChar bq ("&#96;".data)
      (replaceChar '=' ("&#61;".data)
        (replaceChar '>' ("&gt;".data)
          (replaceChar sq ("&#39;".data)
            (replaceChar '"' ("&#34;".data)
              (replaceChar ' ' ("&#32;".data) (ampEscA l)))))))

/-- The `attr is None` (text context) branch of `esc`. -/
def escTextA (l : List Char) : List Char :=
  replaceChar '<' ("&lt;".data) (ampEscT l)

/-- `esc(s, attr)` (ryanc_rst.py lines 48-76); raising `ValueError` on an
unknown quoting style is modelled with `Except.error`. -/
def esc (s : String) (attr : Option String) : Except String String :=
  match attr with
  | some q =>
    if q = "\"" then Except.ok (String.mk (escDqA s.data))
    else if q = String.singleton sq then Except.ok (String.mk (escSqA s.data))
    else if q = "" then Except.ok (String.mk (escUnqA s.data))
    else Except.error "Invalid attribue quoting style specified!"
  | Option.none => Except.ok (String.mk (escTextA s.data))

/-- `esc_sq(s) = esc(s, "'")` (always succeeds). -/
def esc_sq (s : String) : String := String.mk (escSqA s.data)

/-- `esc_dq(s) = esc(s, '"')` (always succeeds). -/
def esc_dq (s : String) : String := String.mk (escDqA s.data)

/-- `esc(s)` with no attribute context (always succeeds). -/
def escText (s : String) : String := String.mk (escTextA s.data)

theorem esc_dq_spec (s : String) : esc s (some "\"") = Except.ok (esc_dq s) := rfl

theorem esc_sq_spec (s : String) : esc s (some (String.singleton sq)) = Except.ok (esc_sq s) := by
  simp [esc, esc_sq]
  intro h
  exact absurd (congrArg String.data h) (by decide)

/-! ### Python values and `html_element` (ryanc_rst.py lines 84-116) -/

/-- The scalar Python values that reach `html_element` attribute positions.
(Nested sequences never reach `html_element` in this plugin, so sequence
elements are scalars.) -/
inductive PyScalar where
  | none
  | bool (b : Bool)
  | str (s : String)
  | int (n : Int)
deriving DecidableEq, Repr

/-- Python `str()` on a scalar. -/
def pyScalarStr : PyScalar → String
  | .none => "None"
  | .bool true => "True"
  | .bool false => "False"
  | .str s => s
  | .int n => toString n

/-- `to_string(value)` (ryanc_rst.py lines 84-87; the `bytes` branch is not
modelled since no byte string reaches it in the modelled call sites). -/
def to_string (value : PyScalar) : String :=
  match value with
  | .str s => s
  | v => pyScalarStr v

/-- A Python value in an attribute position: a scalar or a sequence. -/
inductive PyVal where
  | scalar (v : PyScalar)
  | list (l : List PyScalar)
deriving DecidableEq, Repr

/-- Python `value in (None, False)` — membership by `==`, under which the
integer `0` equals `False` (and `1` equals `True`, though `1 is True` is
false); a string or a sequence never equals `None` or `False`. -/
def inNoneFalse : PyVal → Bool
  | .scalar .none => true
  | .scalar (.bool b) => !b
  | .scalar (.int n) => n == 0
  | _ => false

/-- Python `value is True` — object identity with the `True` singleton. -/
def isTrueObj : PyVal → Bool
  | .scalar (.bool true) => true
  | _ => false

/-- The attribute-name munging at ryanc_rst.py lines 92-94: a trailing
underscore (`attr[-1] == '_'`) is stripped, remaining underscores become
hyphens. -/
def attrName (a : String) : String :=
  String.mk (replaceChar '_' ['-']
    (if a.data.getLast? = some '_' then a.data.dropLast else a.data))

/-- `html_element(tag_name, content=None, **kw)` (ryanc_rst.py lines 89-116).
`kw` is the insertion-ordered keyword-argument dictionary. -/
def html_element (tag_name : String) (content : Option String)
    (kw : List (String × PyVal)) : String :=
  let element := kw.foldl (fun element av =>
    let attr := attrName av.1
    if inNoneFalse av.2 then element
    else if isTrueObj av.2 then element ++ " " ++ attr
    else
      let s : Option String :=
        match av.2 with
        | .scalar (.str s) => some s
        | .list l =>
          if l.length ≠ 0 then some (" ".intercalate (l.map to_string)) else Option.none
        | .scalar v => some (pyScalarStr v)
      match s with
      | some s => element ++ " " ++ attr ++ "=\"" ++ esc_dq s ++ "\""
      | Option.none => element) ("<" ++ tag_name)
  match content with
  | some c => element ++ ">" ++ escText c ++ "</" ++ tag_name ++ ">"
  | Option.none => element ++ ">"

/-! ### `ord_role` (ryanc_rst.py lines 131-150) -/

/-- The text/suffix pair chosen by `ord_role`: `text[-2:]`/`text[:-2]` when a
suffix is already present, otherwise the suffix computed from `int(text)`,
with the source's comparison `11 >= end >= 13` written exactly as the chained
Python comparison (`11 >= end and end >= 13`); `int(text)` failure is
`Option.none`. -/
def ord_suffix (text : String) : Option (String × String) :=
  let last2 := String.mk (text.data.drop (text.data.length - 2))
  if ["st", "nd", "rd", "th"].contains last2 then
    some (String.mk (text.data.take (text.data.length - 2)), last2)
  else
    match pyInt? text with
    | Option.none => Option.none
    | some v =>
      let e := v % 100
      if 11 ≥ e ∧ e ≥ 13 then some (text, "th")
      else
        let e2 := e % 10
        if e2 = 1 then some (text, "st")
        else if e2 = 2 then some (text, "nd")
        else if e2 = 3 then some (text, "rd")
        else some (text, "th")

/-- The HTML produced by `ord_role`. -/
def ord_role (text : String) : Option String :=
  match ord_suffix text with
  | some (t, suffix) => some (escText t ++ "<sup>" ++ suffix ++ "</sup>")
  | Option.none => Option.none

/-! ### `pop_role` and the tag stack (ryanc_rst.py lines 209-230)

The stack is modelled with its top at the head of a `List String` (Python
appends and pops at the right end of `_tag_stack`).  The loop body
`html += '</' + _tag_stack.pop() + '>'` is modelled step by step so that the
stack contents at the moment `list.pop` raises `IndexError` are observable:
the second component is always the stack left behind, and a first component
of `Option.none` is the `IndexError`. -/

def pop_loop : Nat → List String → String → Option String × List String
  | 0, st, html => (some html, st)
  | _ + 1, [], _ => (Option.none, [])
  | n + 1, t :: st, html => pop_loop n st (html ++ "</" ++ t ++ ">")

/-- Popping `n` tags, starting from the empty fragment. -/
def pop_tags (n : Nat) (st : List String) : Option String × List String :=
  pop_loop n st ""

/-- `pop_role` applied to its `text` argument: `n = len(_tag_stack) if text
== '*' else int(text)`; an unparsable count (Python `int` raising
`ValueError`) is the outer `Option.none`. -/
def pop_role (text : String) (st : List String) : Option (Option String × List String) :=
  if text = "*" then some (pop_tags st.length st)
  else
    match pyInt? text with
    | some n => some (pop_tags n st)
    | Option.none => Option.none

/-! ### `a_role` (ryanc_rst.py lines 168-207)

The two `re.search` calls are modelled by direct backtracking scans with the
same semantics: leftmost match; `(.+?)` lazy (shortest first); `\s*`, `[^>]+`
and `([A-Za-z0-9-]+)` greedy followed by a mandatory literal, which makes
their extent deterministic; `.` and `(.*)` do not match a newline. -/

/-- `[A-Za-z0-9-]` -/
def isIdChar (c : Char) : Bool := c.isAlpha || c.isDigit || c = '-'

/-- Try `id\s*=\s*([A-Za-z0-9-]+)` anchored at the head of the list. -/
def idTryAt : List Char → Option String
  | 'i' :: 'd' :: rest =>
    match rest.dropWhile pyIsSpace with
    | '=' :: r2 =>
      let run := (r2.dropWhile pyIsSpace).takeWhile isIdChar
      if run.isEmpty then Option.none else some (String.mk run)
    | _ => Option.none
  | _ => Option.none

/-- `re.search(r"id\s*=\s*([A-Za-z0-9-]+)", text)`: the captured group of the
leftmost match, if any. -/
def idMatch : List Char → Option String
  | [] => Option.none
  | s@(_ :: rest) =>
    match idTryAt s with
    | some r => some r
    | Option.none => idMatch rest

/-- Try `\s*<([^>]+)>\s*(.*)` anchored at the head of the list, returning
groups 2 and 3. -/
def aTryTail (cs : List Char) : Option (List Char × List Char) :=
  match cs.dropWhile pyIsSpace with
  | '<' :: cs2 =>
    let g2 := cs2.takeWhile (fun c => c ≠ '>')
    match cs2.dropWhile (fun c => c ≠ '>') with
    | '>' :: cs3 =>
      if g2.isEmpty then Option.none
      else some (g2, (cs3.dropWhile pyIsSpace).takeWhile (fun c => c ≠ '\n'))
    | _ => Option.none
  | _ => Option.none

/-- Grow the lazy group 1 one character at a time (shortest match first). -/
def aTryG1 (acc : List Char) : List Char → Option (List Char × List Char × List Char)
  | [] => Option.none
  | c :: cs =>
    if c = '\n' then Option.none
    else
      match aTryTail cs with
      | some (g2, g3) => some (acc ++ [c], g2, g3)
      | Option.none => aTryG1 (acc ++ [c]) cs

/-- `re.search(r"(.+?)\s*<([^>]+)>\s*(.*)", text)`: groups 1-3 of the
leftmost match, if any. -/
def aMainMatch : List Char → Option (List Char × List Char × List Char)
  | [] => Option.none
  | s@(_ :: rest) =>
    match aTryG1 [] s with
    | some r => some r
    | Option.none => aMainMatch rest

/-- Python `str.split()` — split on runs of whitespace, discarding empties. -/
def splitWSAux : List Char → List Char → List String
  | [], acc => if acc.isEmpty then [] else [String.mk acc.reverse]
  | c :: cs, acc =>
    if pyIsSpace c then
      if acc.isEmpty then splitWSAux cs [] else String.mk acc.reverse :: splitWSAux cs []
    else splitWSAux cs (c :: acc)

def splitWS (s : List Char) : List String := splitWSAux s []

/-- Python `x.partition('=')` projected to `(before, after)`; `after` is empty
when there is no `=`. -/
def partitionEq (x : String) : String × String :=
  let before := x.data.takeWhile (fun c => c ≠ '=')
  match x.data.dropWhile (fun c => c ≠ '=') with
  | '=' :: rest => (String.mk before, String.mk rest)
  | _ => (String.mk before, "")

/-- A value stored under a key of `kw` in `a_role`: the initial `href` string,
the aliased `classes` list, or a `data.split(',')` list. -/
inductive AVal where
  | str (s : String)
  | clsRef
  | strs (l : List String)

/-- One iteration of the attribute loop at ryanc_rst.py lines 193-203. -/
def aAttrStep (st : List String × List (String × AVal)) (x : String) :
    List String × List (String × AVal) :=
  let (attr, data) := partitionEq x
  if data = "" then st
  else if attr = "class" then (st.1 ++ splitChar ',' data, st.2)
  else (st.1, dictSet st.2 attr (AVal.strs (splitChar ',' data)))

/-- Resolve an `AVal` against the final contents of the `classes` list (the
Python `kw['class_']` entry aliases that list). -/
def aValMaterialize (classes : List String) : AVal → PyVal
  | .str s => PyVal.scalar (PyScalar.str s)
  | .clsRef => PyVal.list (classes.map PyScalar.str)
  | .strs l => PyVal.list (l.map PyScalar.str)

/-- `a_role` (ryanc_rst.py lines 168-207); `raise ValueError` is
`Except.error`. -/
def a_role (text : String) : Except String String :=
  match idMatch text.data with
  | some ident =>
    Except.ok (html_element "a" Option.none [("id", PyVal.scalar (PyScalar.str ident))] ++ "</a>")
  | Option.none =>
    match aMainMatch text.data with
    | Option.none => Except.error ("Invalid a role text: " ++ text)
    | some (g1, g2, g3) =>
      let init : List String × List (String × AVal) :=
        (["reference", "external"], [("href", AVal.str (String.mk g2)), ("class_", AVal.clsRef)])
      let st :=
        if String.mk g3 ≠ "" then (splitWS g3).foldl aAttrStep init else init
      let kw := st.2.map (fun p => (p.1, aValMaterialize st.1 p.2))
      Except.ok (html_element "a" Option.none kw ++ escText (String.mk g1) ++ "</a>")

/-! ### `AbbrState` (abbr_state.py)

`AbbrState.state` is a dictionary keyed by `(src, abbrKey)`; each record holds
`count` plus optionally a `'singular'` and a `'plural'` title.  `get` returns
both the Python return value and the state after the call (Python mutates the
stored record in place; an exception raised before any mutation leaves the
state untouched). -/

structure AbbrRec where
  count : Nat
  singular : Option String
  plural : Option String
deriving DecidableEq, Repr

abbrev AbbrMap := List ((String × String) × AbbrRec)

inductive AbbrErr where
  /-- `abbr[-1]` on an empty string raises `IndexError`. -/
  | indexError
  /-- `raise ValueError('Inconsistent abbreviation ' + detail)`. -/
  | inconsistent (msg : String)
deriving DecidableEq, Repr

structure AbbrSnap where
  count : Nat
  abbr : String
  title : String
deriving DecidableEq, Repr

/-- `abbr[-1] == 's'` (for nonempty `abbr`). -/
def isPluralAbbr (abbr : String) : Bool := abbr.data.getLast? = some 's'

/-- `abbrKey`: `abbr[:-1]` when plural, else `abbr`. -/
def abbrRoot (abbr : String) : String :=
  if isPluralAbbr abbr then String.mk abbr.data.dropLast else abbr

/-- Read the title slot selected by `titleKey` ('plural' or 'singular'). -/
def titleOf (rec : AbbrRec) (plural : Bool) : Option String :=
  if plural then rec.plural else rec.singular

/-- Write the title slot selected by `titleKey`. -/
def setTitle (rec : AbbrRec) (plural : Bool) (t : String) : AbbrRec :=
  if plural then { rec with plural := some t } else { rec with singular := some t }

/-- The `detail` string of the inconsistent-abbreviation error:
`'"%s": "%s" != "%s"' % (abbr, obj[titleKey], title)` with the
`'Inconsistent abbreviation '` prefix. -/
def inconsistentMsg (abbr t0 t : String) : String :=
  "Inconsistent abbreviation \"" ++ abbr ++ "\": \"" ++ t0 ++ "\" != \"" ++ t ++ "\""

/-- `AbbrState.get(src, abbr, title=None)` (abbr_state.py lines 5-42). -/
def AbbrState.get (st : AbbrMap) (src abbr : String) (title : Option String) :
    Except AbbrErr (Option AbbrSnap) × AbbrMap :=
  if abbr = "" then (Except.error AbbrErr.indexError, st)
  else
    let plural := isPluralAbbr abbr
    let key := (src, abbrRoot abbr)
    match dictGet st key with
    | some obj =>
      match title, titleOf obj plural with
      | some t, some t0 =>
        if t ≠ t0 then (Except.error (AbbrErr.inconsistent (inconsistentMsg abbr t0 t)), st)
        else
          let obj' := { obj with count := obj.count + 1 }
          (Except.ok (some ⟨obj'.count, abbr, t0⟩), dictSet st key obj')
      | Option.none, some t0 =>
        let obj' := { obj with count := obj.count + 1 }
        (Except.ok (some ⟨obj'.count, abbr, t0⟩), dictSet st key obj')
      | some t, Option.none =>
        let obj' := { setTitle obj plural t with count := obj.count + 1 }
        (Except.ok (some ⟨obj'.count, abbr, t⟩), dictSet st key obj')
      | Option.none, Option.none => (Except.ok Option.none, st)
    | Option.none =>
      match title with
      | Option.none => (Except.ok Option.none, st)
      | some t =>
        let obj := setTitle ⟨0, Option.none, Option.none⟩ plural t
        (Except.ok (some ⟨0, abbr, t⟩), dictSet st key obj)

/-! ### SHA-256 (`hashlib.sha256`) over byte lists, and `write_file`
(ryanc_rst.py lines 323-333)

Words are `Nat` reduced modulo `2^32`; bytes are `Nat` values below 256. -/

def w32 (n : Nat) : Nat := n % 4294967296

def rotr (k x : Nat) : Nat := w32 ((x >>> k) ||| (x <<< (32 - k)))

def bnot32 (x : Nat) : Nat := Nat.xor x 4294967295

def shaCh (x y z : Nat) : Nat := Nat.xor (Nat.land x y) (Nat.land (bnot32 x) z)

def shaMaj (x y z : Nat) : Nat :=
  Nat.xor (Nat.xor (Nat.land x y) (Nat.land x z)) (Nat.land y z)

def bigSigma0 (x : Nat) : Nat := Nat.xor (Nat.xor (rotr 2 x) (rotr 13 x)) (rotr 22 x)

def bigSigma1 (x : Nat) : Nat := Nat.xor (Nat.xor (rotr 6 x) (rotr 11 x)) (rotr 25 x)

def smallSigma0 (x : Nat) : Nat := Nat.xor (Nat.xor (rotr 7 x) (rotr 18 x)) (x >>> 3)

def smallSigma1 (x : Nat) : Nat := Nat.xor (Nat.xor (rotr 17 x) (rotr 19 x)) (x >>> 10)

def shaK : List Nat :=
  [1116352408, 1899447441, 3049323471, 3921009573, 961987163,
   1508970993, 2453635748, 2870763221, 3624381080, 310598401,
   607225278, 1426881987, 1925078388, 2162078206, 2614888103,
   3248222580, 3835390401, 4022224774, 264347078, 604807628,
   770255983, 1249150122, 1555081692, 1996064986, 2554220882,
   2821834349, 2952996808, 3210313671, 3336571891, 3584528711,
   113926993, 338241895, 666307205, 773529912, 1294757372,
   1396182291, 1695183700, 1986661051, 2177026350, 2456956037,
   2730485921, 2820302411, 3259730800, 3345764771, 3516065817,
   3600352804, 4094571909, 275423344, 430227734, 506948616,
   659060556, 883997877, 958139571, 1322822218, 1537002063,
   1747873779, 1955562222, 2024104815, 2227730452, 2361852424,
   2428436474, 2756734187, 3204031479, 3329325298]

def shaH0 : List Nat :=
  [1779033703, 3144134277, 1013904242, 2773480762, 1359893119,
   2600822924, 528734635, 1541459225]

/-- `k` bytes of `n`, big-endian. -/
def toBE : Nat → Nat → List Nat
  | 0, _ => []
  | k + 1, n => toBE k (n / 256) ++ [n % 256]

/-- SHA-256 padding: `0x80`, zeros to 56 mod 64, then the 64-bit bit length. -/
def sha256pad (msg : List Nat) : List Nat :=
  let l := msg.length
  let zeros := (119 - l % 64) % 64
  msg ++ [128] ++ List.replicate zeros 0 ++ toBE 8 (8 * l)

/-- Big-endian 32-bit words from bytes. -/
def toWordsBE : List Nat → List Nat
  | b0 :: b1 :: b2 :: b3 :: rest => (((b0 * 256 + b1) * 256 + b2) * 256 + b3) :: toWordsBE rest
  | _ => []

/-- Split a word list into 16-word blocks; the fuel is an upper bound on the
number of blocks (each step consumes 16 words). -/
def chunks16Fuel : Nat → List Nat → List (List Nat)
  | 0, _ => []
  | _ + 1, [] => []
  | f + 1, ws => ws.take 16 :: chunks16Fuel f (ws.drop 16)

def chunks16 (ws : List Nat) : List (List Nat) := chunks16Fuel ws.length ws

/-- Extend the 16-word block by `fuel` schedule words. -/
def buildW (w : List Nat) : Nat → List Nat
  | 0 => w
  | f + 1 =>
    let i := w.length
    buildW (w ++ [w32 (smallSigma1 (w.getD (i - 2) 0) + w.getD (i - 7) 0 +
      smallSigma0 (w.getD (i - 15) 0) + w.getD (i - 16) 0)]) f

def msgSchedule (block : List Nat) : List Nat := buildW block 48

/-- One round of the compression function. -/
def shaRound (s : Nat × Nat × Nat × Nat × Nat × Nat × Nat × Nat) (kw : Nat × Nat) :
    Nat × Nat × Nat × Nat × Nat × Nat × Nat × Nat :=
  match s, kw with
  | (a, b, c, d, e, f, g, h), (k, w) =>
    let t1 := w32 (h + bigSigma1 e + shaCh e f g + k + w)
    let t2 := w32 (bigSigma0 a + shaMaj a b c)
    (w32 (t1 + t2), a, b, c, w32 (d + t1), e, f, g)

/-- Process one 16-word block. -/
def compressBlock (hs : List Nat) (block : List Nat) : List Nat :=
  let ws := msgSchedule block
  let init := (hs.getD 0 0, hs.getD 1 0, hs.getD 2 0, hs.getD 3 0,
               hs.getD 4 0, hs.getD 5 0, hs.getD 6 0, hs.getD 7 0)
  match (shaK.zip ws).foldl shaRound init with
  | (a, b, c, d, e, f, g, h) =>
    List.zipWith (fun x y => w32 (x + y)) hs [a, b, c, d, e, f, g, h]

/-- The eight hash words of a byte string. -/
def sha256words (msg : List Nat) : List Nat :=
  (chunks16 (toWordsBE (sha256pad msg))).foldl compressBlock shaH0

/-- The lowercase hexadecimal alphabet. -/
def hexDigitChars : List Char := "0123456789abcdef".data

def hexChar (n : Nat) : Char := hexDigitChars.getD n 'f'

/-- Eight lowercase hex digits of a 32-bit word. -/
def toHex8 (n : Nat) : List Char :=
  [hexChar (n / 268435456 % 16), hexChar (n / 16777216 % 16), hexChar (n / 1048576 % 16),
   hexChar (n / 65536 % 16), hexChar (n / 4096 % 16), hexChar (n / 256 % 16),
   hexChar (n / 16 % 16), hexChar (n % 16)]

/-- `sha256(data).hexdigest()` as a character list. -/
def sha256hexChars (msg : List Nat) : List Char := ((sha256words msg).map toHex8).flatten

def sha256hex (msg : List Nat) : String := String.mk (sha256hexChars msg)

/-- The file-system state touched by `_Directive.write_file`: created
directories, file contents by path, and a count of physical writes (each
`f.write(data)` call). -/
structure FS where
  dirs : List String
  files : List (String × List Nat)
  writes : Nat

/-- `write_file(self, suffix, data)` (ryanc_rst.py lines 323-333), with the
source stem and output directory passed explicitly.  Returns the web path and
the new file-system state; `mkdir(exist_ok=True)` adds the directory if
missing, and the `open('wb')`/`write` pair unconditionally performs a write. -/
def write_file (output_dir src_stem suffix : String) (data : List Nat) (fs : FS) :
    String × FS :=
  let d := src_stem ++ "_"
  let name := String.mk ((sha256hexChars data).take 20) ++ suffix
  let web := "/" ++ d ++ "/" ++ name
  let aux := output_dir ++ "/" ++ d
  let dirs := if fs.dirs.contains aux then fs.dirs else fs.dirs ++ [aux]
  (web, { dirs := dirs, files := dictSet fs.files (aux ++ "/" ++ name) data,
          writes := fs.writes + 1 })

/-! ## Helper lemmas -/

theorem dictGet_dictSet {κ α : Type} [DecidableEq κ] (l : List (κ × α)) (k : κ) (v : α) :
    dictGet (dictSet l k v) k = some v := by
  induction l with
  | nil => simp [dictGet, dictSet]
  | cons p rest ih =>
    obtain ⟨k', v'⟩ := p
    by_cases hk : k' = k
    · simp [dictSet, dictGet, hk]
    · simp [dictSet, dictGet, hk, ih]

theorem dictSet_dictSet {κ α : Type} [DecidableEq κ] (l : List (κ × α)) (k : κ) (v : α) :
    dictSet (dictSet l k v) k v = dictSet l k v := by
  induction l with
  | nil => simp [dictSet]
  | cons p rest ih =>
    obtain ⟨k', v'⟩ := p
    by_cases hk : k' = k
    · simp [dictSet, hk]
    · simp [dictSet, hk, ih]

theorem pop_loop_underflow (st : List String) :
    ∀ (n : Nat) (acc : String), st.length < n → pop_loop n st acc = (Option.none, []) := by
  induction st with
  | nil =>
    intro n acc h
    match n with
    | m + 1 => rfl
  | cons t ts ih =>
    intro n acc h
    match n with
    | m + 1 =>
      have : ts.length < m := by simpa using h
      simpa [pop_loop] using ih m (acc ++ "</" ++ t ++ ">") this

/-! ## Claims -/

/-- C1: the claim states the standard 11-13 exception rule (value mod 100 in
11..13 gives `th`), and the code comment `do the right thing` shows the same
intent, but the source's guard `11 >= end >= 13` (Python chained comparison
`11 >= end and end >= 13`) is never true, so the exception branch is dead
code: inputs 11, 12, 13, 111 render with suffixes st, nd, rd, st instead of
the claimed th, th, th, th.  This theorem evaluates the embedded `ord_role`
at every input listed by the claim, exhibiting the divergence. -/
theorem C1_ord_role_suffixes :
    ord_role "1" = some "1<sup>st</sup>" ∧ ord_role "2" = some "2<sup>nd</sup>" ∧
    ord_role "3" = some "3<sup>rd</sup>" ∧ ord_role "4" = some "4<sup>th</sup>" ∧
    ord_role "11" = some "11<sup>st</sup>" ∧ ord_role "12" = some "12<sup>nd</sup>" ∧
    ord_role "13" = some "13<sup>rd</sup>" ∧ ord_role "21" = some "21<sup>st</sup>" ∧
    ord_role "22" = some "22<sup>nd</sup>" ∧ ord_role "23" = some "23<sup>rd</sup>" ∧
    ord_role "101" = some "101<sup>st</sup>" ∧ ord_role "111" = some "111<sup>st</sup>" := by
  decide

/-- C3 counterexample: popping 2 tags from a stack of depth 1 fails (the
`IndexError` from `list.pop` on the empty list), but the stack is left empty,
not unchanged: the single entry `a` was removed before the failure. -/
theorem C3_pop_counterexample :
    pop_role "2" ["a"] = some (Option.none, []) ∧ ([] : List String) ≠ ["a"] := by
  decide

/-- C3 amended: for every stack and every requested integer pop count
exceeding the depth, `pop` fails with the index error, and leaves the stack
empty — every entry is popped before the failure (not, as claimed,
unmodified). -/
theorem C3_pop_underflow_empties_stack (n : Nat) (st : List String)
    (h : st.length < n) :
    (pop_tags n st).1 = Option.none ∧ (pop_tags n st).2 = [] := by
  have := pop_loop_underflow st n "" h
  unfold pop_tags
  rw [this]
  exact ⟨rfl, rfl⟩

/-- C3 witness: the amended theorem applied at a concrete underflow. -/
theorem C3_pop_underflow_witness :
    (2 : Nat) > ([ "a" ] : List String).length ∧
      (pop_tags 2 ["a"]).1 = Option.none ∧ (pop_tags 2 ["a"]).2 = [] :=
  ⟨by decide, C3_pop_underflow_empties_stack 2 ["a"] (by decide)⟩

/-- C9: resolving the empty abbreviation string raises the `IndexError` from
`abbr[-1]` before any lookup, any taxonomy error, and any state change, for
every state, document and optional title — so nonempty abbreviation text is a
precondition of `AbbrState.get`. -/
theorem C9_empty_abbr_index_error (st : AbbrMap) (src : String) (title : Option String) :
    AbbrState.get st src "" title = (Except.error AbbrErr.indexError, st) := rfl

/-- C10: whenever `AbbrState.get` fails with the inconsistent-abbreviation
error, the state is returned exactly as it was: the conflict check precedes
the title assignment and the count increment, so neither title slot nor the
occurrence count of any record is modified. -/
theorem C10_inconsistent_error_preserves_state (st : AbbrMap) (src abbr : String)
    (title : Option String) (m : String)
    (h : (AbbrState.get st src abbr title).1 = Except.error (AbbrErr.inconsistent m)) :
    (AbbrState.get st src abbr title).2 = st := by
  by_cases he : abbr = ""
  · simp [AbbrState.get, he] at h
  · simp only [AbbrState.get, if_neg he] at h ⊢
    rcases hg : dictGet st (src, abbrRoot abbr) with _ | obj
    · rw [hg] at h
      rcases title with _ | t <;> simp at h
    · rw [hg] at h
      simp only [] at h
      rcases title with _ | t
      · rcases ht : titleOf obj (isPluralAbbr abbr) with _ | t0 <;> rw [ht] at h <;> simp at h
      · rcases ht : titleOf obj (isPluralAbbr abbr) with _ | t0
        · rw [ht] at h; simp at h
        · rw [ht] at h
          by_cases hne : t = t0
          · simp [hne] at h
          · simp [ht, hne]

/-- C10 witness: a concrete conflicting resolution triggers the error and the
state is unchanged. -/
theorem C10_witness :
    ((AbbrState.get [(("d", "AB"), ⟨3, some "T1", Option.none⟩)] "d" "AB" (some "T2")).1
        = Except.error (AbbrErr.inconsistent (inconsistentMsg "AB" "T1" "T2"))) ∧
    (AbbrState.get [(("d", "AB"), ⟨3, some "T1", Option.none⟩)] "d" "AB" (some "T2")).2
        = [(("d", "AB"), ⟨3, some "T1", Option.none⟩)] :=
  ⟨by decide,
   C10_inconsistent_error_preserves_state _ "d" "AB" (some "T2")
     (inconsistentMsg "AB" "T1" "T2") (by decide)⟩

theorem setTitle_count (r : AbbrRec) (p : Bool) (t : String) :
    (setTitle r p t).count = r.count := by
  unfold setTitle
  split <;> rfl

/-- C2 counterexample: starting from the empty state, resolve the singular
root (`AB`, count 0), then perform the FIRST successful resolution of the
plural triple (`ABs`): it returns count 1, not the claimed 0, because the
occurrence count is stored once per (document, root) record and shared by
both pluralities. -/
theorem C2_counterexample :
    ((AbbrState.get (AbbrState.get [] "d" "AB" (some "T1")).2 "d" "ABs" (some "T2")).1
      = Except.ok (some ⟨1, "ABs", "T2"⟩)) ∧ (1 : Nat) ≠ 0 := by
  decide

/-- C2 amended: the occurrence count is per (document, normalizedRoot) key,
shared by the two pluralities: a successful (snapshot-returning) resolution
returns count 0 if the key was absent, and the stored count plus 1 if a
record was present — whichever plurality created or last touched it — and the
new state stores the returned count, so the next successful resolution of the
key returns one more. -/
theorem C2_count_shared_per_key (st : AbbrMap) (src abbr : String) (title : Option String)
    (snap : AbbrSnap) (st' : AbbrMap)
    (h : AbbrState.get st src abbr title = (Except.ok (some snap), st')) :
    (dictGet st (src, abbrRoot abbr) = Option.none → snap.count = 0)
    ∧ (∀ rec : AbbrRec, dictGet st (src, abbrRoot abbr) = some rec → snap.count = rec.count + 1)
    ∧ (∃ rec' : AbbrRec, dictGet st' (src, abbrRoot abbr) = some rec'
        ∧ rec'.count = snap.count) := by
  by_cases he : abbr = ""
  · simp [AbbrState.get, he] at h
  · simp only [AbbrState.get, if_neg he] at h
    rcases hg : dictGet st (src, abbrRoot abbr) with _ | obj
    · rw [hg] at h
      simp only [] at h
      rcases title with _ | t
      · simp at h
      · rw [Prod.mk.injEq] at h
        obtain ⟨h1, h2⟩ := h
        simp only [Except.ok.injEq, Option.some.injEq] at h1
        subst h1
        refine ⟨fun _ => rfl, ?_, ?_⟩
        · intro rec hrec
          cases hrec
        · exact ⟨setTitle ⟨0, Option.none, Option.none⟩ (isPluralAbbr abbr) t,
            (by rw [← h2]; exact dictGet_dictSet st _ _),
            (by rw [setTitle_count])⟩
    · rw [hg] at h
      simp only [] at h
      rcases title with _ | t
      · rcases ht : titleOf obj (isPluralAbbr abbr) with _ | t0
        · rw [ht] at h; simp at h
        · rw [ht] at h
          rw [Prod.mk.injEq] at h
          obtain ⟨h1, h2⟩ := h
          simp only [Except.ok.injEq, Option.some.injEq] at h1
          subst h1
          refine ⟨?_, ?_, ?_⟩
          · intro hc; cases hc
          · intro rec hrec; cases hrec; rfl
          · exact ⟨_, (by rw [← h2]; exact dictGet_dictSet st _ _), rfl⟩
      · rcases ht : titleOf obj (isPluralAbbr abbr) with _ | t0
        · rw [ht] at h
          rw [Prod.mk.injEq] at h
          obtain ⟨h1, h2⟩ := h
          simp only [Except.ok.injEq, Option.some.injEq] at h1
          subst h1
          refine ⟨?_, ?_, ?_⟩
          · intro hc; cases hc
          · intro rec hrec; cases hrec; rfl
          · exact ⟨_, (by rw [← h2]; exact dictGet_dictSet st _ _), rfl⟩
        · rw [ht] at h
          simp only [] at h
          by_cases hne : t = t0
          · subst hne
            rw [if_neg (by simp)] at h
            rw [Prod.mk.injEq] at h
            obtain ⟨h1, h2⟩ := h
            simp only [Except.ok.injEq, Option.some.injEq] at h1
            subst h1
            refine ⟨?_, ?_, ?_⟩
            · intro hc; cases hc
            · intro rec hrec; cases hrec; rfl
            · exact ⟨_, (by rw [← h2]; exact dictGet_dictSet st _ _), rfl⟩
          · rw [if_pos hne] at h
            simp at h

/-- C2 witness: the amended theorem applied to the creating resolution of a
fresh key. -/
theorem C2_witness :
    (dictGet ([] : AbbrMap) ("d", abbrRoot "AB") = Option.none
      → (⟨0, "AB", "T1"⟩ : AbbrSnap).count = 0)
    ∧ (∀ rec : AbbrRec, dictGet ([] : AbbrMap) ("d", abbrRoot "AB") = some rec
        → (⟨0, "AB", "T1"⟩ : AbbrSnap).count = rec.count + 1)
    ∧ (∃ rec' : AbbrRec,
        dictGet [(("d", "AB"), (⟨0, some "T1", Option.none⟩ : AbbrRec))] ("d", abbrRoot "AB")
          = some rec' ∧ rec'.count = (⟨0, "AB", "T1"⟩ : AbbrSnap).count) :=
  C2_count_shared_per_key [] "d" "AB" (some "T1") ⟨0, "AB", "T1"⟩
    [(("d", "AB"), ⟨0, some "T1", Option.none⟩)] (by decide)

/-- C6: once a title is recorded for a (document, root) key and a plurality,
a later resolution of the same key and plurality supplying a different
explicit title fails with the inconsistent-abbreviation error whose message
names both conflicting titles, and leaves the state unchanged; while a
resolution whose own plurality has no recorded title succeeds regardless of
what the other plurality's title is — the two pluralities are tracked
independently for the conflict check. -/
theorem C6_inconsistent_title_conflict (st : AbbrMap) (src abbr t t0 : String)
    (rec : AbbrRec) (hne : abbr ≠ "")
    (hlk : dictGet st (src, abbrRoot abbr) = some rec) :
    (titleOf rec (isPluralAbbr abbr) = some t0 → t ≠ t0 →
      AbbrState.get st src abbr (some t) =
        (Except.error (AbbrErr.inconsistent (inconsistentMsg abbr t0 t)), st))
    ∧ (titleOf rec (isPluralAbbr abbr) = Option.none →
      (AbbrState.get st src abbr (some t)).1 =
        Except.ok (some ⟨rec.count + 1, abbr, t⟩)) := by
  constructor
  · intro ht hne2
    simp only [AbbrState.get, if_neg hne]
    rw [hlk]
    simp only []
    rw [ht]
    simp [hne2]
  · intro ht
    simp only [AbbrState.get, if_neg hne]
    rw [hlk]
    simp only []
    rw [ht]

/-- C6 witness: a concrete conflict on the singular plurality of root `AB`
fails with the error naming both titles. -/
theorem C6_witness :
    AbbrState.get [(("d", "AB"), (⟨0, some "T1", Option.none⟩ : AbbrRec))] "d" "AB" (some "T2")
      = (Except.error (AbbrErr.inconsistent (inconsistentMsg "AB" "T1" "T2")),
         [(("d", "AB"), (⟨0, some "T1", Option.none⟩ : AbbrRec))]) :=
  (C6_inconsistent_title_conflict _ "d" "AB" "T2" "T1" ⟨0, some "T1", Option.none⟩
      (by decide) (by decide)).1 (by decide) (by decide)

/-- C5 counterexample: the link role on the claim's input does not render the
claimed string — the code inserts `href` into the keyword dictionary before
`class_`, so `href` is emitted first, while the claimed string puts
`class` first. -/
theorem C5_counterexample :
    a_role "Example <https://example.com> class=foo,bar target=_blank"
      ≠ Except.ok ("<a class=\"reference external foo bar\" href=\"https://example.com\""
          ++ " target=\"_blank\">Example</a>") := by
  decide

/-- C5 amended: the same input renders the same attributes in the dictionary
insertion order `href`, `class`, `target`; the `class=` token appends `foo`
and `bar` to the base class list `reference external` rather than
overwriting it. -/
theorem C5_a_role_end_to_end :
    a_role "Example <https://example.com> class=foo,bar target=_blank"
      = Except.ok ("<a href=\"https://example.com\" class=\"reference external foo bar\""
          ++ " target=\"_blank\">Example</a>") := by
  decide

/-- C7 counterexample: an attribute whose value is the integer `0` is
suppressed entirely, not rendered as `x="0"`: the source's guard
`value not in (None, False)` compares with Python `==`, under which
`0 == False`. -/
theorem C7_counterexample :
    html_element "div" Option.none [("x", PyVal.scalar (PyScalar.int 0))] = "<div>"
      ∧ "<div>" ≠ "<div x=\"0\">" := by
  decide

/-- C7 amended: in `html_element`, a `True` value renders as a bare attribute
name; `False` and `None` suppress the attribute; a sequence renders its
elements string-converted and joined by single spaces, and renders nothing
when empty; a string renders escaped and double-quoted; any other value
compared unequal to `None` and `False` is stringified and rendered escaped
and double-quoted — but the integer `0` compares equal to `False` under
Python `==` and is suppressed (so not every number is rendered). -/
theorem C7_html_element_attribute_rendering (t k s : String) (l : List PyScalar) (n : Int)
    (hl : l ≠ []) (hn : n ≠ 0) :
    html_element t Option.none [(k, PyVal.scalar (PyScalar.bool true))]
        = "<" ++ t ++ " " ++ attrName k ++ ">"
    ∧ html_element t Option.none [(k, PyVal.scalar (PyScalar.bool false))] = "<" ++ t ++ ">"
    ∧ html_element t Option.none [(k, PyVal.scalar PyScalar.none)] = "<" ++ t ++ ">"
    ∧ html_element t Option.none [(k, PyVal.list l)]
        = "<" ++ t ++ " " ++ attrName k ++ "=\""
            ++ esc_dq (" ".intercalate (l.map to_string)) ++ "\"" ++ ">"
    ∧ html_element t Option.none [(k, PyVal.list [])] = "<" ++ t ++ ">"
    ∧ html_element t Option.none [(k, PyVal.scalar (PyScalar.str s))]
        = "<" ++ t ++ " " ++ attrName k ++ "=\"" ++ esc_dq s ++ "\"" ++ ">"
    ∧ html_element t Option.none [(k, PyVal.scalar (PyScalar.int n))]
        = "<" ++ t ++ " " ++ attrName k ++ "=\"" ++ esc_dq (toString n) ++ "\"" ++ ">"
    ∧ html_element t Option.none [(k, PyVal.scalar (PyScalar.int 0))] = "<" ++ t ++ ">" := by
  refine ⟨rfl, rfl, rfl, ?_, rfl, rfl, ?_, rfl⟩
  · have hlen : l.length ≠ 0 := fun h0 => hl (List.length_eq_zero.mp h0)
    simp [html_element, inNoneFalse, isTrueObj, hlen, hl]
  · have hbeq : (n == 0) = false := by simpa using hn
    simp [html_element, inNoneFalse, isTrueObj, hbeq, pyScalarStr]

/-- C7 witness: the amended theorem applied at concrete values of every
case. -/
theorem C7_witness :
    html_element "div" Option.none [("x", PyVal.list [PyScalar.str "a", PyScalar.str "b"])]
        = "<div x=\"a b\">"
    ∧ html_element "div" Option.none [("x", PyVal.scalar (PyScalar.int 7))] = "<div x=\"7\">" := by
  have h := C7_html_element_attribute_rendering "div" "x" "v"
    [PyScalar.str "a", PyScalar.str "b"] 7 (by decide) (by decide)
  exact ⟨h.2.2.2.1.trans (by decide), (h.2.2.2.2.2.2.1).trans (by decide)⟩

/-! ### C8 machinery: escaped-safe inputs and neutralization -/

/-- An input is ampersand-safe for the attribute context when no `&` in it
starts a plausible character reference (the pattern `&(#|[A-Za-z0-9]+;)`), so
the `re.sub` pass matches nothing. -/
def ampSafeA : List Char → Bool
  | [] => true
  | c :: cs => (c != '&' || (chrRef cs).isNone) && ampSafeA cs

theorem ampEscA_of_safe : ∀ {l : List Char}, ampSafeA l = true → ampEscA l = l := by
  intro l
  induction l with
  | nil => intro _; rfl
  | cons c cs ih =>
    intro h
    rw [ampSafeA, Bool.and_eq_true, Bool.or_eq_true] at h
    unfold ampEscA
    by_cases hc : c = '&'
    · subst hc
      have hnone : chrRef cs = Option.none := by
        rcases h.1 with h1 | h1
        · simp at h1
        · exact Option.isNone_iff_eq_none.mp h1
      rw [hnone]
      simp [ih h.2]
    · simp [hc, ih h.2]

theorem replaceChar_of_not_mem {c : Char} {l : List Char} (r : List Char) (h : c ∉ l) :
    replaceChar c r l = l := by
  induction l with
  | nil => rfl
  | cons x xs ih =>
    have hx : x ≠ c := fun he => h (by simp [he])
    have hxs : c ∉ xs := fun hm => h (List.mem_cons_of_mem _ hm)
    simp [replaceChar, hx, ih hxs]

theorem not_mem_replaceChar_self {c : Char} (r : List Char) (l : List Char) (h : c ∉ r) :
    c ∉ replaceChar c r l := by
  induction l with
  | nil => simp [replaceChar]
  | cons x xs ih =>
    rw [replaceChar]
    rw [List.mem_append]
    rintro (h1 | h1)
    · by_cases hx : x = c
      · rw [if_pos hx] at h1; exact h h1
      · rw [if_neg hx] at h1
        simp at h1
        exact hx (h1 ▸ rfl)
    · exact ih h1

theorem not_mem_replaceChar {x c : Char} (r : List Char) (l : List Char)
    (hl : x ∉ l) (hr : x ∉ r) : x ∉ replaceChar c r l := by
  induction l with
  | nil => simp [replaceChar]
  | cons y ys ih =>
    have hy : x ≠ y := fun he => hl (by simp [he])
    have hys : x ∉ ys := fun hm => hl (List.mem_cons_of_mem _ hm)
    rw [replaceChar]
    rw [List.mem_append]
    rintro (h1 | h1)
    · by_cases hyc : y = c
      · rw [if_pos hyc] at h1; exact hr h1
      · rw [if_neg hyc] at h1
        simp at h1
        exact hy h1
    · exact ih hys h1

/-- Escaped-safe input for double-quoted attribute context: nothing for the
escaping pass to rewrite. -/
def escSafeDq (l : List Char) : Prop :=
  ampSafeA l = true ∧ '"' ∉ l ∧ '<' ∉ l

/-- Escaped-safe input for single-quoted attribute context. -/
def escSafeSq (l : List Char) : Prop :=
  ampSafeA l = true ∧ sq ∉ l ∧ '<' ∉ l

/-- Escaped-safe input for the unquoted attribute context. -/
def escSafeUnq (l : List Char) : Prop :=
  ampSafeA l = true ∧ ' ' ∉ l ∧ '"' ∉ l ∧ sq ∉ l ∧ '>' ∉ l ∧ '=' ∉ l ∧ bq ∉ l ∧ '<' ∉ l

instance (l : List Char) : Decidable (escSafeDq l) := by unfold escSafeDq; infer_instance

instance (l : List Char) : Decidable (escSafeSq l) := by unfold escSafeSq; infer_instance

instance (l : List Char) : Decidable (escSafeUnq l) := by unfold escSafeUnq; infer_instance

/-- C8: for each of the three quoting styles, attribute-context escaping
returns an already escaped-safe input unchanged, and for every input the
output contains no raw `<` and no raw occurrence of the style's quote
character(s) — `"` for the double-quoted style, `'` for the single-quoted
style, and both quotes for the unquoted style. -/
theorem C8_attr_escaping (l : List Char) :
    (escSafeDq l → escDqA l = l)
    ∧ (escSafeSq l → escSqA l = l)
    ∧ (escSafeUnq l → escUnqA l = l)
    ∧ ('<' ∉ escDqA l ∧ '"' ∉ escDqA l)
    ∧ ('<' ∉ escSqA l ∧ sq ∉ escSqA l)
    ∧ ('<' ∉ escUnqA l ∧ '"' ∉ escUnqA l ∧ sq ∉ escUnqA l) := by
  refine ⟨?_, ?_, ?_, ⟨?_, ?_⟩, ⟨?_, ?_⟩, ⟨?_, ?_, ?_⟩⟩
  · rintro ⟨h1, h2, h3⟩
    unfold escDqA
    rw [ampEscA_of_safe h1, replaceChar_of_not_mem _ h2, replaceChar_of_not_mem _ h3]
  · rintro ⟨h1, h2, h3⟩
    unfold escSqA
    rw [ampEscA_of_safe h1, replaceChar_of_not_mem _ h2, replaceChar_of_not_mem _ h3]
  · rintro ⟨h1, h2, h3, h4, h5, h6, h7, h8⟩
    unfold escUnqA
    rw [ampEscA_of_safe h1, replaceChar_of_not_mem _ h2, replaceChar_of_not_mem _ h3,
      replaceChar_of_not_mem _ h4, replaceChar_of_not_mem _ h5, replaceChar_of_not_mem _ h6,
      replaceChar_of_not_mem _ h7, replaceChar_of_not_mem _ h8]
  · unfold escDqA
    exact not_mem_replaceChar_self _ _ (by decide)
  · unfold escDqA
    apply not_mem_replaceChar
    · exact not_mem_replaceChar_self _ _ (by decide)
    · decide
  · unfold escSqA
    exact not_mem_replaceChar_self _ _ (by decide)
  · unfold escSqA
    apply not_mem_replaceChar
    · exact not_mem_replaceChar_self _ _ (by decide)
    · decide
  · unfold escUnqA
    exact not_mem_replaceChar_self _ _ (by decide)
  · unfold escUnqA
    apply not_mem_replaceChar
    · apply not_mem_replaceChar
      · apply not_mem_replaceChar
        · apply not_mem_replaceChar
          · apply not_mem_replaceChar
            · exact not_mem_replaceChar_self _ _ (by decide)
            · decide
          · decide
        · decide
      · decide
    · decide
  · unfold escUnqA
    apply not_mem_replaceChar
    · apply not_mem_replaceChar
      · apply not_mem_replaceChar
        · apply not_mem_replaceChar
          · exact not_mem_replaceChar_self _ _ (by decide)
          · decide
        · decide
      · decide
    · decide

/-- C8 witness: the theorem applied at a concrete escaped-safe input. -/
theorem C8_witness :
    (escSafeDq "a-b.c".data ∧ escDqA "a-b.c".data = "a-b.c".data)
    ∧ '<' ∉ escDqA "x<\"y".data ∧ '"' ∉ escDqA "x<\"y".data :=
  ⟨⟨by decide, (C8_attr_escaping "a-b.c".data).1 (by decide)⟩,
   (C8_attr_escaping "x<\"y".data).2.2.2.1.1,
   (C8_attr_escaping "x<\"y".data).2.2.2.1.2⟩

/-! ### C4 machinery: digest length and hex-digit shape -/

theorem hexChar_mem_of_lt {m : Nat} (h : m < 16) : hexChar m ∈ hexDigitChars := by
  interval_cases m <;> decide

theorem length_toHex8 (n : Nat) : (toHex8 n).length = 8 := rfl

theorem length_compressBlock (hs block : List Nat) :
    (compressBlock hs block).length = min hs.length 8 := by
  simp only [compressBlock]
  rcases hfold : (shaK.zip (msgSchedule block)).foldl shaRound
      (hs.getD 0 0, hs.getD 1 0, hs.getD 2 0, hs.getD 3 0,
       hs.getD 4 0, hs.getD 5 0, hs.getD 6 0, hs.getD 7 0) with
    ⟨a, b, c, d, e, f, g, hh⟩
  simp [List.length_zipWith]

theorem length_foldl_compressBlock (blocks : List (List Nat)) :
    ∀ hs : List Nat, hs.length = 8 → (blocks.foldl compressBlock hs).length = 8 := by
  induction blocks with
  | nil => intro hs h; simpa using h
  | cons b bs ih =>
    intro hs h
    rw [List.foldl_cons]
    exact ih _ (by rw [length_compressBlock, h]; rfl)

theorem length_sha256words (msg : List Nat) : (sha256words msg).length = 8 :=
  length_foldl_compressBlock _ shaH0 rfl

theorem length_sha256hexChars (msg : List Nat) : (sha256hexChars msg).length = 64 := by
  unfold sha256hexChars
  rw [List.length_flatten, List.map_map]
  have h1 : (sha256words msg).map (List.length ∘ toHex8)
      = (sha256words msg).map (fun _ => 8) := by
    apply List.map_congr_left
    intro a _
    exact length_toHex8 a
  rw [h1]
  have h2 : ∀ l : List Nat, (l.map (fun _ => (8 : Nat))).sum = 8 * l.length := by
    intro l
    induction l with
    | nil => simp
    | cons a t ih => simp [ih]; ring
  rw [h2, length_sha256words]

theorem mem_sha256hexChars (msg : List Nat) :
    ∀ c ∈ sha256hexChars msg, c ∈ hexDigitChars := by
  intro c hc
  unfold sha256hexChars at hc
  rw [List.mem_flatten] at hc
  rcases hc with ⟨l, hl, hcl⟩
  rw [List.mem_map] at hl
  rcases hl with ⟨w, _, rfl⟩
  unfold toHex8 at hcl
  simp only [List.mem_cons, List.not_mem_nil, or_false] at hcl
  rcases hcl with h | h | h | h | h | h | h | h <;>
    (subst h; exact hexChar_mem_of_lt (Nat.mod_lt _ (by decide)))

/-- C4 counterexample: calling `write_file` twice with the same payload,
suffix and stem performs two physical writes, not the claimed one — the code
opens and writes unconditionally, with no existence check (the second write
merely overwrites the file with identical bytes). -/
theorem C4_counterexample :
    ((write_file "out" "doc" ".min.js" [104, 105]
        (write_file "out" "doc" ".min.js" [104, 105] ⟨[], [], 0⟩).2).2.writes = 2)
    ∧ (2 : Nat) ≠ 1 := by
  constructor
  · rfl
  · decide

/-- C4 amended: asset externalization is deterministic — for every payload,
suffix and source stem it returns the URL
`/{stem}_/{first 20 hex characters of the SHA-256 digest}{suffix}`,
independent of the file-system state, and the 20 digest characters are hex
digits; calling it twice with the same inputs leaves the stored file contents
exactly as after the first call (the second write stores identical bytes at
the same path) but performs a second physical write rather than skipping
it. -/
theorem C4_write_file_deterministic (output_dir src_stem suffix : String)
    (data : List Nat) (fs fs2 : FS) :
    (write_file output_dir src_stem suffix data fs).1
        = (write_file output_dir src_stem suffix data fs2).1
    ∧ (write_file output_dir src_stem suffix data fs).1
        = "/" ++ (src_stem ++ "_") ++ "/"
            ++ (String.mk ((sha256hexChars data).take 20) ++ suffix)
    ∧ ((sha256hexChars data).take 20).length = 20
    ∧ (∀ c ∈ (sha256hexChars data).take 20, c ∈ hexDigitChars)
    ∧ (write_file output_dir src_stem suffix data
          (write_file output_dir src_stem suffix data fs).2).2.files
        = (write_file output_dir src_stem suffix data fs).2.files
    ∧ (write_file output_dir src_stem suffix data
          (write_file output_dir src_stem suffix data fs).2).2.writes
        = (write_file output_dir src_stem suffix data fs).2.writes + 1 := by
  refine ⟨rfl, rfl, ?_, ?_, ?_, rfl⟩
  · rw [List.length_take, length_sha256hexChars]
    rfl
  · intro c hc
    exact mem_sha256hexChars data c (List.mem_of_mem_take hc)
  · show dictSet (dictSet fs.files _ data) _ data = dictSet fs.files _ data
    exact dictSet_dictSet _ _ _

end RyancRst
